import Mathlib

/-!
Verification of the beatcutter core: a shallow embedding of the beat-grid
builder, the beat analyzer BPM estimate, the auto-sync planner, the timeline
edit operations, the preview scheduler seek computation and the export
compiler gap/frame-rate logic, together with proofs of the documented
invariants. Times are modelled as exact rationals; identifiers as naturals.
-/

namespace Beatcutter

/-! ## Data model (types.ts) -/

inductive MediaType where
  | video
  | audio
deriving Repr, DecidableEq, Inhabited

/-- SourceClip of types.ts. The clip name is modelled as a natural number key;
the numeric-aware name ordering used by the planner becomes the order on ℕ. -/
structure SourceClip where
  id : ℕ
  name : ℕ
  duration : ℚ
  type : MediaType
deriving Repr, DecidableEq, Inhabited

/-- FadeRange as used by App.tsx and PreviewPlayer. -/
structure FadeRange where
  enabled : Bool
  startMs : ℚ
  endMs : ℚ
deriving Repr, DecidableEq

/-- ClipSegment of types.ts, extended with the optional fields the App code
reads (playbackRate, reverse, fadeIn, fadeOut). -/
structure ClipSegment where
  id : ℕ
  sourceClipId : ℕ
  timelineStart : ℚ
  duration : ℚ
  sourceStartOffset : ℚ
  playbackRate : Option ℚ := none
  reverse : Bool := false
  fadeIn : Option FadeRange := none
  fadeOut : Option FadeRange := none
deriving Repr, DecidableEq

structure TimelineTrack where
  id : ℕ
  type : MediaType
  segments : List ClipSegment
deriving Repr, DecidableEq

/-- Modelled from the spec: constants.ts is imported for BEATS_PER_BAR but its
defining entry is absent from the sources; the auto-sync scenarios of the spec
fix beats-per-bar to 4. -/
def BEATS_PER_BAR : ℕ := 4

/-- BeatGrid of types.ts. -/
structure BeatGrid where
  bpm : ℚ
  offset : ℚ
  beats : List ℚ
deriving Repr, DecidableEq

/-! ## BeatGridBuilder (audioUtils.ts, buildBeatGrid)

The two while loops are modelled with explicit fuel standing for the number
of iterations executed; a result of none means the fuel was exhausted before
the loop condition became false, so termination of a loop is exactly the
existence of sufficient fuel. -/

/-- Backward walk of buildBeatGrid: while (t > 0) t -= spb. -/
def backfillLoop (spb : ℚ) : ℕ → ℚ → Option ℚ
  | 0, t => if 0 < t then none else some t
  | fuel + 1, t => if 0 < t then backfillLoop spb fuel (t - spb) else some t

/-- Forward walk of buildBeatGrid: while (t < durationSec) push max(0, t)
when t >= -0.1, then t += spb. -/
def forwardLoop (spb durationSec : ℚ) : ℕ → ℚ → List ℚ → Option (List ℚ)
  | 0, t, acc => if t < durationSec then none else some acc
  | fuel + 1, t, acc =>
    if t < durationSec then
      forwardLoop spb durationSec fuel (t + spb)
        (acc ++ if -(1/10) ≤ t then [max 0 t] else [])
    else some acc

/-- Deduplicate and sort ascending, as new Set + sort do in buildBeatGrid.
Sorting a duplicate-free list with ≤ determines the result uniquely, so the
insertion sort stands in for the JS sort. -/
def uniqueSorted (l : List ℚ) : List ℚ :=
  l.dedup.insertionSort (· ≤ ·)

/-- buildBeatGrid of audioUtils.ts. For bpm ≤ 0 the source loops do not
terminate (or degenerate), so the model returns an empty grid there; all
stated properties assume bpm > 0. The fuel bounds are proved sufficient in
the termination theorem below, so the none fallbacks are dead code. -/
def buildBeatGrid (bpm offset durationSec : ℚ) : BeatGrid :=
  if 0 < bpm then
    let spb := 60 / bpm
    match backfillLoop spb ((⌈offset / spb⌉).toNat + 1) offset with
    | none => { bpm := bpm, offset := offset, beats := [] }
    | some t0 =>
      match forwardLoop spb durationSec ((⌈(durationSec - t0) / spb⌉).toNat + 1) t0 [] with
      | none => { bpm := bpm, offset := offset, beats := [] }
      | some cleanBeats => { bpm := bpm, offset := offset, beats := uniqueSorted cleanBeats }
  else { bpm := bpm, offset := offset, beats := [] }

/-! ## BeatAnalyzer BPM estimate (audioUtils.ts, analyzeBeats steps 3-4)

Only the interval-to-BPM step is modelled: it is a pure function of the onset
timestamps (beatTimes, in seconds). -/

/-- Successive onset intervals kept by analyzeBeats: the differences
beatTimes[i] - beatTimes[i-1] with 0.3 < interval < 1.0 (both strict). -/
def qualifyingIntervals (beatTimes : List ℚ) : List ℚ :=
  ((beatTimes.zip beatTimes.tail).map fun p => p.2 - p.1).filter
    fun interval => decide (3/10 < interval ∧ interval < 1)

/-- BPM estimate of analyzeBeats before octave correction: 120 unless there are
at least two onsets and a nonempty qualifying interval list, in which case the
entry at index ⌊length/2⌋ of the ascending-sorted intervals is used. -/
def estimateBpm (beatTimes : List ℚ) : ℤ :=
  if 1 < beatTimes.length then
    let intervals := qualifyingIntervals beatTimes
    let sortedIntervals := intervals.insertionSort (· ≤ ·)
    if 0 < intervals.length then
      round (60 / sortedIntervals.getD (sortedIntervals.length / 2) 0)
    else 120
  else 120

/-- Reading of the (amended) spec sentence: default 120 exactly when no
qualifying interval exists; otherwise round (60 / m) where m is the entry at
index ⌊n/2⌋ of the ascending-sorted qualifying intervals. -/
def bpmSpecEstimate (beatTimes : List ℚ) : ℤ :=
  let kept := qualifyingIntervals beatTimes
  if kept = [] then 120
  else round (60 / (kept.insertionSort (· ≤ ·)).getD (kept.length / 2) 0)

/-! ## AutoSyncPlanner (syncEngine.ts, autoSyncClips) -/

def defaultFadeIn : FadeRange := { enabled := false, startMs := 0, endMs := 500 }

def defaultFadeOut : FadeRange := { enabled := false, startMs := -500, endMs := 0 }

/-- Insertion-order deduplication, as Array.from(new Set(list)). -/
def jsSetDedup : List ℤ → List ℤ
  | [] => []
  | x :: xs => x :: jsSetDedup (xs.filter fun y => y != x)
termination_by l => l.length
decreasing_by
  simp only [List.length_cons]
  exact Nat.lt_succ_of_le (List.length_filter_le _ _)

/-- First allowed bar length (in beats) whose end beat index stays inside the
grid; on the very first segment each candidate is reduced by the beats lost to
a negative grid offset (never below one beat). -/
def chooseEndBeatIndex (beatsLen beatIndex firstAdjustment : ℕ) : List ℕ → Option ℕ
  | [] => none
  | beatLength :: rest =>
    let adjusted := if beatIndex = 0 then max 1 (beatLength - firstAdjustment) else beatLength
    if beatIndex + adjusted < beatsLen then some (beatIndex + adjusted)
    else chooseEndBeatIndex beatsLen beatIndex firstAdjustment rest

/-- The chosen end beat index of one autoSyncClips iteration: the first
allowed bar length that fits, else the one-bar fallback when it fits, else
none (which breaks the loop). -/
def chosenEndIndex (beatsLen beatIndex firstAdjustment : ℕ) (allowedBarLengths : List ℕ)
    (beatsPerBar : ℕ) : Option ℕ :=
  match chooseEndBeatIndex beatsLen beatIndex firstAdjustment allowedBarLengths with
  | some idx => some idx
  | none =>
    let fallbackLength :=
      if beatIndex = 0 then max 1 (beatsPerBar - firstAdjustment) else beatsPerBar
    if beatIndex + fallbackLength < beatsLen then some (beatIndex + fallbackLength)
    else none

/-- Main loop of autoSyncClips. The fuel counts loop iterations; beatIndex
strictly increases on every path that recurses, and the loop runs only while
beatIndex + 1 < beats.length, so beats.length iterations always suffice.
Generated segment ids are modelled as the running segment index. -/
def autoSyncLoop (orderedClips : List SourceClip) (beats : List ℚ) (totalDuration : ℚ)
    (allowedBarLengths : List ℕ) (beatsPerBar firstAdjustment : ℕ) :
    ℕ → ℕ → ℕ → List ClipSegment
  | 0, _, _ => []
  | fuel + 1, beatIndex, segmentIndex =>
    if beatIndex + 1 < beats.length then
      let startTime := beats.getD beatIndex 0 * 1000
      let clip := orderedClips.getD (segmentIndex % orderedClips.length) default
      match chosenEndIndex beats.length beatIndex firstAdjustment allowedBarLengths
          beatsPerBar with
      | none => []
      | some endIdx =>
        let endTime := beats.getD endIdx 0 * 1000
        let duration := endTime - startTime
        if duration < 100 then
          autoSyncLoop orderedClips beats totalDuration allowedBarLengths beatsPerBar
            firstAdjustment fuel (beatIndex + 1) segmentIndex
        else
          let seg : ClipSegment :=
            { id := segmentIndex, sourceClipId := clip.id, timelineStart := startTime,
              duration := duration, sourceStartOffset := 0, reverse := false,
              fadeIn := some defaultFadeIn, fadeOut := some defaultFadeOut }
          if totalDuration < startTime then [seg]
          else
            seg :: autoSyncLoop orderedClips beats totalDuration allowedBarLengths beatsPerBar
              firstAdjustment fuel endIdx (segmentIndex + 1)
    else []

/-- autoSyncClips of syncEngine.ts (the preferredBars variant). preferredBars
is always finite in the rational model, so the Number.isFinite fallback
branch is dropped; the name-ordering sort is the order on the ℕ name keys. -/
def autoSyncClips (clips : List SourceClip) (beatGrid : BeatGrid) (totalDuration : ℚ)
    (preferredBars : ℚ := 4) : List ClipSegment :=
  let beatsPerBar := BEATS_PER_BAR
  let sanitizedBars : ℤ := max 1 (round preferredBars)
  let fallbackBars := ([4, 2, 1] : List ℤ).filter fun bars => decide (bars < sanitizedBars)
  let allowedBarLengths :=
    (jsSetDedup (sanitizedBars :: fallbackBars)).map fun bars => bars.toNat * beatsPerBar
  let orderedClips := clips.insertionSort fun a b => a.name ≤ b.name
  if orderedClips.length = 0 ∨ beatGrid.beats.length = 0 then []
  else
    let beats := beatGrid.beats
    let secondsPerBeat := 60 / beatGrid.bpm
    let missingBeats : ℤ :=
      if beatGrid.offset < 0 then ⌊(-beatGrid.offset) / secondsPerBeat⌋ + 1 else 0
    let firstSegmentBeatAdjustment := (missingBeats - 1).toNat
    autoSyncLoop orderedClips beats totalDuration allowedBarLengths beatsPerBar
      firstSegmentBeatAdjustment beats.length 0 0

/-! ## TimelineModel edit operations (App.tsx) -/

/-- Partial segment update, as the updates argument of handleUpdateSegment
(the id field is never part of an update in the App). -/
structure SegmentUpdates where
  sourceClipId : Option ℕ := none
  timelineStart : Option ℚ := none
  duration : Option ℚ := none
  sourceStartOffset : Option ℚ := none
  playbackRate : Option (Option ℚ) := none
  reverse : Option Bool := none
  fadeIn : Option (Option FadeRange) := none
  fadeOut : Option (Option FadeRange) := none
deriving Repr, DecidableEq

/-- The spread { ...s, ...updates, duration: nextDuration }. -/
def applySegmentUpdates (s : ClipSegment) (u : SegmentUpdates) (nextDuration : ℚ) :
    ClipSegment :=
  { id := s.id
    sourceClipId := u.sourceClipId.getD s.sourceClipId
    timelineStart := u.timelineStart.getD s.timelineStart
    duration := nextDuration
    sourceStartOffset := u.sourceStartOffset.getD s.sourceStartOffset
    playbackRate := u.playbackRate.getD s.playbackRate
    reverse := u.reverse.getD s.reverse
    fadeIn := u.fadeIn.getD s.fadeIn
    fadeOut := u.fadeOut.getD s.fadeOut }

/-- Models orderById.get(segId) ?? -1: the position of the first segment with
the given id in the list, -1 when absent (segment ids are unique in the App,
so first and last occurrence coincide). -/
def idIndex : List ClipSegment → ℕ → ℤ
  | [], _ => -1
  | s :: rest, segId =>
    if s.id = segId then 0
    else
      let r := idIndex rest segId
      if r < 0 then -1 else r + 1

/-- Per-track body of handleUpdateSegment: update the target segment and shift
every segment strictly later in timeline order by delta. The JS sort by
timelineStart is stable, as is the insertion sort used here. -/
def updateSegmentInTrack (segId : ℕ) (updates : SegmentUpdates) (t : TimelineTrack) :
    TimelineTrack :=
  match t.segments.find? fun s => s.id == segId with
  | none => t
  | some target =>
    let nextDuration := updates.duration.getD target.duration
    let delta := nextDuration - target.duration
    let orderedSegments := t.segments.insertionSort fun a b => a.timelineStart ≤ b.timelineStart
    let targetIndex := idIndex orderedSegments segId
    let shifted := t.segments.map fun s =>
      if s.id = segId then applySegmentUpdates s updates nextDuration
      else if delta ≠ 0 ∧ 0 ≤ targetIndex ∧ targetIndex < idIndex orderedSegments s.id then
        { s with timelineStart := s.timelineStart + delta }
      else s
    { t with segments := shifted }

/-- handleUpdateSegment of App.tsx. -/
def handleUpdateSegment (tracks : List TimelineTrack) (segId : ℕ) (updates : SegmentUpdates) :
    List TimelineTrack :=
  tracks.map (updateSegmentInTrack segId updates)

/-- clampOffsetForClip of App.tsx: the single offset clamp,
min(max(0, offsetMs), max(0, clipDuration - durationMs)), with maxOffset 0
when the clip is not found. -/
def clampOffsetForClip (clips : List SourceClip) (clipId : ℕ) (durationMs offsetMs : ℚ) : ℚ :=
  let maxOffset :=
    match clips.find? fun c => c.id == clipId with
    | some clip => max 0 (clip.duration - durationMs)
    | none => 0
  min (max 0 offsetMs) maxOffset

/-- handleSwapSegments of App.tsx: exchange the sourceClipId of two segments on
tracks of the same type, re-clamping each offset against the other clip. -/
def handleSwapSegments (clips : List SourceClip) (tracks : List TimelineTrack)
    (sourceId targetId : ℕ) : List TimelineTrack :=
  match tracks.find? fun t => t.segments.any fun s => s.id == sourceId,
        tracks.find? fun t => t.segments.any fun s => s.id == targetId with
  | some sourceTrack, some targetTrack =>
    if sourceTrack.type ≠ targetTrack.type then tracks
    else
      match sourceTrack.segments.find? fun s => s.id == sourceId,
            targetTrack.segments.find? fun s => s.id == targetId with
      | some sourceSegment, some targetSegment =>
        let nextSourceOffset := clampOffsetForClip clips targetSegment.sourceClipId
          sourceSegment.duration targetSegment.sourceStartOffset
        let nextTargetOffset := clampOffsetForClip clips sourceSegment.sourceClipId
          targetSegment.duration sourceSegment.sourceStartOffset
        tracks.map fun track =>
          if track.id ≠ sourceTrack.id ∧ track.id ≠ targetTrack.id then track
          else
            { track with
              segments := track.segments.map fun seg =>
                if seg.id = sourceSegment.id then
                  { seg with
                    sourceClipId := targetSegment.sourceClipId
                    sourceStartOffset := nextSourceOffset }
                else if seg.id = targetSegment.id then
                  { seg with
                    sourceClipId := sourceSegment.sourceClipId
                    sourceStartOffset := nextTargetOffset }
                else seg }
      | _, _ => tracks
  | _, _ => tracks

/-! ## PlaybackScheduler (PreviewPlayer sync logic) -/

/-- Source seek time computed by the PreviewPlayer sync effect
(targetSourceTime), before the later clamp against the player-reported
duration. A non-numeric playbackRate maps to rate 1; a numeric one is floored
at 0.05. -/
def previewTargetSourceTime (sourceClip : SourceClip) (seg : ClipSegment)
    (currentTime : ℚ) : ℚ :=
  let offsetInSegment := max 0 (min seg.duration (currentTime - seg.timelineStart))
  let requestedRate :=
    match seg.playbackRate with
    | some rate => max (1/20) rate
    | none => 1
  let availableDuration := max 0 (sourceClip.duration - seg.sourceStartOffset)
  let maxRate :=
    if 0 < availableDuration ∧ 0 < seg.duration then availableDuration / seg.duration
    else requestedRate
  let effectiveRate := min requestedRate maxRate
  let effectiveOffset :=
    if seg.reverse then seg.duration - offsetInSegment else offsetInSegment
  (seg.sourceStartOffset + effectiveOffset * effectiveRate) / 1000

/-! ## ExportCompiler (App.tsx, handleExport) -/

/-- Numeric content of one per-segment ffmpeg filter chain: the computed gap,
the solid-color filler prepended via tpad when the gap is positive, and the
trim/speed parameters. -/
structure RenderedSegment where
  gapSec : ℚ
  fillerSec : Option ℚ
  sourceStartSec : ℚ
  trimDurationSec : ℚ
  speedRate : ℚ
  reverse : Bool
deriving Repr, DecidableEq

/-- Per-segment loop of handleExport over the timeline-sorted video segments:
lastEndSec accumulates the previous rendered segment end; segments whose
source clip is missing are skipped without advancing lastEndSec. -/
def exportRenderLoop (clips : List SourceClip) : ℚ → List ClipSegment → List RenderedSegment
  | _, [] => []
  | lastEndSec, segment :: rest =>
    match clips.find? fun c => c.id == segment.sourceClipId with
    | none => exportRenderLoop clips lastEndSec rest
    | some clip =>
      let segmentDurationMs := max 1 segment.duration
      let segmentDurationSec := segmentDurationMs / 1000
      let segmentStartSec := segment.timelineStart / 1000
      let gapSec := max 0 (segmentStartSec - lastEndSec)
      let startSec := segment.sourceStartOffset / 1000
      let requestedRate :=
        match segment.playbackRate with
        | some rate => max (1/20) rate
        | none => 1
      let availableDuration := max 0 (clip.duration - segment.sourceStartOffset)
      let maxRate :=
        if 0 < availableDuration ∧ 0 < segmentDurationMs then
          availableDuration / segmentDurationMs
        else requestedRate
      let effectiveRate := min requestedRate maxRate
      let speedRate := if 0 < effectiveRate then effectiveRate else 1
      let durationSec := max (1/1000) (segmentDurationMs * speedRate / 1000)
      { gapSec := gapSec
        fillerSec := if 0 < gapSec then some gapSec else none
        sourceStartSec := startSec
        trimDurationSec := durationSec
        speedRate := speedRate
        reverse := segment.reverse } ::
        exportRenderLoop clips (segmentStartSec + segmentDurationSec) rest

/-- The export compilation of the video track: sort by timelineStart, then run
the per-segment loop from lastEndSec = 0. -/
def exportRender (clips : List SourceClip) (videoSegments : List ClipSegment) :
    List RenderedSegment :=
  exportRenderLoop clips 0
    (videoSegments.insertionSort fun a b => a.timelineStart ≤ b.timelineStart)

/-- isNearlyInteger of handleExport, epsilon defaulting to 1e-3. -/
def isNearlyInteger (value : ℚ) (epsilon : ℚ := 1/1000) : Bool :=
  decide (|value - ((round value : ℤ) : ℚ)| ≤ epsilon)

/-- frameAligned of handleExport: every segment start and duration lands within
epsilon of an integer frame count at the target frame rate. -/
def frameAligned (sortedSegments : List ClipSegment) (frameRate : ℚ) : Bool :=
  sortedSegments.all fun segment =>
    isNearlyInteger (segment.timelineStart / 1000 * frameRate) &&
    isNearlyInteger (segment.duration / 1000 * frameRate)

/-- useCfrExport of handleExport. -/
def useCfrExport (sortedSegments : List ClipSegment) (frameRate : ℚ) : Bool :=
  frameAligned sortedSegments frameRate

/-- outputDurationTargetSec of handleExport: the frame-snapped duration for
constant-frame-rate output, the raw accumulated duration otherwise. -/
def outputDurationTargetSec (sortedSegments : List ClipSegment) (frameRate : ℚ)
    (outputDurationSec : ℚ) : ℚ :=
  let outputDurationFixedSec :=
    if 0 < outputDurationSec then ((round (outputDurationSec * frameRate) : ℤ) : ℚ) / frameRate
    else 0
  if useCfrExport sortedSegments frameRate then outputDurationFixedSec else outputDurationSec

/-! ## General helper lemmas -/

/-- A ≤-sorted list without duplicates is strictly increasing. -/
theorem pairwise_lt_of_pairwise_le_nodup {α : Type} [LinearOrder α] {l : List α}
    (hle : l.Pairwise (· ≤ ·)) (hnd : l.Nodup) : l.Pairwise (· < ·) :=
  (hle.and hnd).imp fun h => lt_of_le_of_ne h.1 h.2

/-! ## C5: the BPM estimate -/

/-- Claim C5 fails on the code: with onsets [0, 0.4] there is exactly one
qualifying interval, yet the estimate is 150, not the claimed default 120. -/
theorem estimateBpm_single_interval_not_default :
    (qualifyingIntervals [0, 2/5]).length = 1 ∧
    estimateBpm [0, 2/5] = 150 ∧ estimateBpm [0, 2/5] ≠ 120 := by
  refine ⟨by norm_num [qualifyingIntervals], ?_, ?_⟩ <;>
    norm_num [estimateBpm, qualifyingIntervals, List.insertionSort, List.orderedInsert,
      round_eq]

/-- C5 (amended): the kept intervals are those strictly between 0.3 s and
1.0 s; the estimate defaults to 120 exactly when no qualifying interval exists
(in particular whenever fewer than two onsets exist), and otherwise — already
with a single qualifying interval — it is round (60 / m) with m the entry at
index ⌊n/2⌋ of the ascending-sorted kept intervals. -/
theorem estimateBpm_eq_bpmSpecEstimate (beatTimes : List ℚ) :
    estimateBpm beatTimes = bpmSpecEstimate beatTimes := by
  match beatTimes with
  | [] => rfl
  | [x] => rfl
  | x :: y :: rest =>
    have hlen : 1 < (x :: y :: rest).length := by simp
    by_cases hk : qualifyingIntervals (x :: y :: rest) = []
    · simp [estimateBpm, bpmSpecEstimate, hk]
    · have hpos : 0 < (qualifyingIntervals (x :: y :: rest)).length :=
        List.length_pos.mpr hk
      simp only [estimateBpm, bpmSpecEstimate, if_pos hlen, if_pos hpos, if_neg hk]
      rw [(List.perm_insertionSort _ (qualifyingIntervals (x :: y :: rest))).length_eq]

/-! ## C9: constant- versus variable-frame-rate selection -/

/-- C9: the export selects constant-frame-rate output exactly when every
segment start and duration, converted to frames, is within 1e-3 of an integer
frame count; otherwise the output duration target stays anchored at the raw
accumulated total (and under CFR it is the frame-snapped total). -/
theorem useCfrExport_selection (sortedSegments : List ClipSegment)
    (frameRate outputDurationSec : ℚ) :
    (useCfrExport sortedSegments frameRate = true ↔
      ∀ s ∈ sortedSegments,
        |s.timelineStart / 1000 * frameRate -
          ((round (s.timelineStart / 1000 * frameRate) : ℤ) : ℚ)| ≤ 1/1000 ∧
        |s.duration / 1000 * frameRate -
          ((round (s.duration / 1000 * frameRate) : ℤ) : ℚ)| ≤ 1/1000) ∧
    (useCfrExport sortedSegments frameRate = false →
      outputDurationTargetSec sortedSegments frameRate outputDurationSec =
        outputDurationSec) ∧
    (useCfrExport sortedSegments frameRate = true → 0 < outputDurationSec →
      outputDurationTargetSec sortedSegments frameRate outputDurationSec =
        ((round (outputDurationSec * frameRate) : ℤ) : ℚ) / frameRate) := by
  refine ⟨?_, ?_, ?_⟩
  · simp [useCfrExport, frameAligned, isNearlyInteger, List.all_eq_true]
  · intro h
    simp [outputDurationTargetSec, h]
  · intro h hpos
    simp [outputDurationTargetSec, h, hpos]

/-! ## C3: the preview source-seek time -/

/-- Claim C3 fails on the code: with sourceStartOffset equal to the clip
duration (allowed by the claim hypotheses) the available source duration is 0,
the rate cap falls back to the requested rate, and a reversed segment at its
start seeks to 21 s inside a 1 s clip. -/
theorem previewTargetSourceTime_exceeds_clip_end :
    previewTargetSourceTime { id := 0, name := 0, duration := 1000, type := MediaType.video }
      { id := 1, sourceClipId := 0, timelineStart := 0, duration := 1000,
        sourceStartOffset := 1000, playbackRate := some 20, reverse := true } 0 = 21 ∧
    ¬ previewTargetSourceTime { id := 0, name := 0, duration := 1000, type := MediaType.video }
      { id := 1, sourceClipId := 0, timelineStart := 0, duration := 1000,
        sourceStartOffset := 1000, playbackRate := some 20, reverse := true } 0 ≤
      1000 / 1000 := by
  constructor <;> norm_num [previewTargetSourceTime]

/-- Arithmetic core of the amended C3 bound. -/
theorem previewSeekBoundAux (off cd d reqRate eo : ℚ) (h2 : off < cd)
    (hoff : 0 ≤ off) (h3 : 0 < d) (h4 : 0 < reqRate) (h5 : 0 ≤ eo) (h6 : eo ≤ d) :
    0 ≤ (off + eo * min reqRate ((cd - off) / d)) / 1000 ∧
    (off + eo * min reqRate ((cd - off) / d)) / 1000 ≤ cd / 1000 := by
  have hsub : (0:ℚ) ≤ cd - off := by linarith
  have hrate0 : 0 ≤ min reqRate ((cd - off) / d) :=
    le_min (le_of_lt h4) (div_nonneg hsub (le_of_lt h3))
  have hprod : eo * min reqRate ((cd - off) / d) ≤ cd - off := by
    have h7 : min reqRate ((cd - off) / d) ≤ (cd - off) / d := min_le_right _ _
    have h8 : eo * min reqRate ((cd - off) / d) ≤ d * ((cd - off) / d) := by
      calc eo * min reqRate ((cd - off) / d) ≤ d * min reqRate ((cd - off) / d) :=
            mul_le_mul_of_nonneg_right h6 hrate0
        _ ≤ d * ((cd - off) / d) := mul_le_mul_of_nonneg_left h7 (le_of_lt h3)
    rwa [mul_div_cancel₀ _ (ne_of_gt h3)] at h8
  have hprod0 : 0 ≤ eo * min reqRate ((cd - off) / d) := mul_nonneg h5 hrate0
  constructor
  · positivity
  · have h9 : off + eo * min reqRate ((cd - off) / d) ≤ cd := by linarith
    linarith

/-- The preview seek computation under the conditions 0 < available source
duration and 0 < segment duration, with the rate cap expanded. -/
theorem previewTargetSourceTime_eq (sourceClip : SourceClip) (seg : ClipSegment)
    (currentTime : ℚ) (h1 : 0 < sourceClip.duration - seg.sourceStartOffset)
    (h2 : 0 < seg.duration) :
    previewTargetSourceTime sourceClip seg currentTime =
      (seg.sourceStartOffset +
        (if seg.reverse then
            seg.duration - max 0 (min seg.duration (currentTime - seg.timelineStart))
          else max 0 (min seg.duration (currentTime - seg.timelineStart))) *
        min (match seg.playbackRate with | some rate => max (1/20) rate | none => 1)
          ((sourceClip.duration - seg.sourceStartOffset) / seg.duration)) / 1000 := by
  have havail : max 0 (sourceClip.duration - seg.sourceStartOffset) =
      sourceClip.duration - seg.sourceStartOffset := max_eq_right h1.le
  simp [previewTargetSourceTime, havail, h1, h2]

/-- C3 (amended): whenever 0 ≤ sourceStartOffset < sourceClip.duration and
duration ≥ 1, the computed source-seek time lies within
[0, sourceClip.duration / 1000]; the additional epsilon margin of the claim is
enforced only by the later clamp against the player-reported duration, and the
bound 1000/1000 is attained by reversed segments at their start. -/
theorem previewTargetSourceTime_bounds (sourceClip : SourceClip) (seg : ClipSegment)
    (currentTime : ℚ) (hoffNonneg : 0 ≤ seg.sourceStartOffset)
    (hoffLt : seg.sourceStartOffset < sourceClip.duration) (hdur : 1 ≤ seg.duration) :
    0 ≤ previewTargetSourceTime sourceClip seg currentTime ∧
    previewTargetSourceTime sourceClip seg currentTime ≤ sourceClip.duration / 1000 := by
  have hd0 : (0 : ℚ) < seg.duration := lt_of_lt_of_le one_pos hdur
  rw [previewTargetSourceTime_eq sourceClip seg currentTime (by linarith) hd0]
  have hoffIn1 : 0 ≤ max 0 (min seg.duration (currentTime - seg.timelineStart)) :=
    le_max_left _ _
  have hoffIn2 : max 0 (min seg.duration (currentTime - seg.timelineStart)) ≤ seg.duration :=
    max_le (le_of_lt hd0) (min_le_left _ _)
  have hrr : (0 : ℚ) <
      (match seg.playbackRate with | some rate => max (1/20) rate | none => 1) := by
    rcases seg.playbackRate with _ | rate
    · exact one_pos
    · exact lt_of_lt_of_le (by norm_num) (le_max_left _ _)
  rcases hrev : seg.reverse with _ | _
  · simp only [Bool.false_eq_true, if_false]
    exact previewSeekBoundAux _ _ _ _ _ hoffLt hoffNonneg hd0 hrr hoffIn1 hoffIn2
  · simp only [if_true]
    exact previewSeekBoundAux _ _ _ _ _ hoffLt hoffNonneg hd0 hrr
      (by linarith) (by linarith)

/-- Witness for the amended C3 bound at a concrete reversed segment with an
extreme requested rate. -/
theorem previewTargetSourceTime_bounds_witness :
    0 ≤ previewTargetSourceTime { id := 0, name := 0, duration := 1000, type := MediaType.video }
      { id := 1, sourceClipId := 0, timelineStart := 0, duration := 1000,
        sourceStartOffset := 0, playbackRate := some 20, reverse := true } 0 ∧
    previewTargetSourceTime { id := 0, name := 0, duration := 1000, type := MediaType.video }
      { id := 1, sourceClipId := 0, timelineStart := 0, duration := 1000,
        sourceStartOffset := 0, playbackRate := some 20, reverse := true } 0 ≤ 1000 / 1000 :=
  previewTargetSourceTime_bounds _ _ 0 (by decide) (by decide) (by decide)

/-! ## C2 and C10: the beat grid builder -/

/-- The backward walk only stops at a non-positive time. -/
theorem backfillLoop_nonpos (spb : ℚ) :
    ∀ fuel t t0, backfillLoop spb fuel t = some t0 → t0 ≤ 0 := by
  intro fuel
  induction fuel with
  | zero =>
    intro t t0 h
    by_cases ht : 0 < t
    · simp [backfillLoop, ht] at h
    · simp only [backfillLoop, if_neg ht, Option.some.injEq] at h
      subst h
      exact le_of_not_lt ht
  | succ fuel ih =>
    intro t t0 h
    by_cases ht : 0 < t
    · simp only [backfillLoop, if_pos ht] at h
      exact ih _ _ h
    · simp only [backfillLoop, if_neg ht, Option.some.injEq] at h
      subst h
      exact le_of_not_lt ht

/-- Fuel bound for the backward walk: ⌈t / spb⌉ iterations reach a
non-positive time when the step is positive. -/
theorem backfillLoop_isSome (spb : ℚ) (hspb : 0 < spb) :
    ∀ fuel t, (⌈t / spb⌉).toNat < fuel → (backfillLoop spb fuel t).isSome := by
  intro fuel
  induction fuel with
  | zero => intro t h; omega
  | succ fuel ih =>
    intro t h
    by_cases ht : 0 < t
    · simp only [backfillLoop, if_pos ht]
      apply ih
      have hdiv : (t - spb) / spb = t / spb - 1 := by
        field_simp
      have hceil : ⌈(t - spb) / spb⌉ = ⌈t / spb⌉ - 1 := by
        rw [hdiv]
        exact_mod_cast Int.ceil_sub_one (t / spb)
      have hpos : 0 < ⌈t / spb⌉ := Int.ceil_pos.mpr (div_pos ht hspb)
      rw [hceil]
      omega
    · simp [backfillLoop, if_neg ht]

/-- Every timestamp the forward walk accumulates is non-negative (each pushed
value is max 0 t). -/
theorem forwardLoop_nonneg (spb durationSec : ℚ) :
    ∀ fuel t acc l, forwardLoop spb durationSec fuel t acc = some l →
      (∀ x ∈ acc, 0 ≤ x) → ∀ x ∈ l, 0 ≤ x := by
  intro fuel
  induction fuel with
  | zero =>
    intro t acc l h hacc
    by_cases ht : t < durationSec
    · simp [forwardLoop, ht] at h
    · simp only [forwardLoop, if_neg ht, Option.some.injEq] at h
      subst h; exact hacc
  | succ fuel ih =>
    intro t acc l h hacc
    by_cases ht : t < durationSec
    · simp only [forwardLoop, if_pos ht] at h
      refine ih _ _ _ h ?_
      intro x hx
      rcases List.mem_append.mp hx with hx | hx
      · exact hacc x hx
      · have hx2 : x = max 0 t := by
          by_cases hpush : -(1/10) ≤ t
          · rw [if_pos hpush] at hx
            exact List.mem_singleton.mp hx
          · rw [if_neg hpush] at hx
            exact absurd hx (List.not_mem_nil x)
        rw [hx2]
        exact le_max_left _ _
    · simp only [forwardLoop, if_neg ht, Option.some.injEq] at h
      subst h; exact hacc

/-- Fuel bound for the forward walk. -/
theorem forwardLoop_isSome (spb durationSec : ℚ) (hspb : 0 < spb) :
    ∀ fuel t acc, (⌈(durationSec - t) / spb⌉).toNat < fuel →
      (forwardLoop spb durationSec fuel t acc).isSome := by
  intro fuel
  induction fuel with
  | zero => intro t acc h; omega
  | succ fuel ih =>
    intro t acc h
    by_cases ht : t < durationSec
    · simp only [forwardLoop, if_pos ht]
      apply ih
      have hdiv : (durationSec - (t + spb)) / spb = (durationSec - t) / spb - 1 := by
        field_simp
        ring
      have hceil : ⌈(durationSec - (t + spb)) / spb⌉ = ⌈(durationSec - t) / spb⌉ - 1 := by
        rw [hdiv]
        exact_mod_cast Int.ceil_sub_one ((durationSec - t) / spb)
      have hpos : 0 < ⌈(durationSec - t) / spb⌉ :=
        Int.ceil_pos.mpr (div_pos (by linarith) hspb)
      rw [hceil]
      omega
    · simp [forwardLoop, if_neg ht]

/-- The deduplicated sorted beat list is strictly increasing. -/
theorem uniqueSorted_pairwise_lt (l : List ℚ) : (uniqueSorted l).Pairwise (· < ·) :=
  pairwise_lt_of_pairwise_le_nodup (List.sorted_insertionSort _ _)
    ((List.perm_insertionSort _ _).nodup_iff.mpr l.nodup_dedup)

theorem uniqueSorted_mem (l : List ℚ) (x : ℚ) : x ∈ uniqueSorted l ↔ x ∈ l := by
  unfold uniqueSorted
  rw [(List.perm_insertionSort _ _).mem_iff, List.mem_dedup]

/-- C2: for bpm > 0 and duration ≥ 0, buildBeatGrid produces a strictly
increasing beat sequence whose entries are all ≥ 0 (values that would fall
below zero are clamped to 0 before insertion). -/
theorem buildBeatGrid_strictMono_nonneg (bpm offset durationSec : ℚ) (hbpm : 0 < bpm)
    (hdur : 0 ≤ durationSec) :
    (buildBeatGrid bpm offset durationSec).beats.Pairwise (· < ·) ∧
    ∀ b ∈ (buildBeatGrid bpm offset durationSec).beats, 0 ≤ b := by
  simp only [buildBeatGrid, if_pos hbpm]
  cases hb : backfillLoop (60 / bpm) ((⌈offset / (60 / bpm)⌉).toNat + 1) offset with
  | none => simp
  | some t0 =>
    dsimp only
    cases hf : forwardLoop (60 / bpm) durationSec
        ((⌈(durationSec - t0) / (60 / bpm)⌉).toNat + 1) t0 [] with
    | none => simp
    | some cleanBeats =>
      dsimp only
      refine ⟨uniqueSorted_pairwise_lt _, ?_⟩
      intro b hbmem
      rw [uniqueSorted_mem] at hbmem
      exact forwardLoop_nonneg _ _ _ _ _ _ hf (by simp) b hbmem

/-- Witness for C2 at the spec scenario bpm 120, offset 0, duration 4 s. -/
theorem buildBeatGrid_strictMono_nonneg_witness :
    (buildBeatGrid 120 0 4).beats.Pairwise (· < ·) ∧
    ∀ b ∈ (buildBeatGrid 120 0 4).beats, 0 ≤ b :=
  buildBeatGrid_strictMono_nonneg 120 0 4 (by decide) (by decide)

/-- C10: with bpm > 0 both while loops of buildBeatGrid terminate within the
fuel bounds the definition uses — the backward walk reaches t ≤ 0 and the
forward walk reaches t ≥ durationSec in finitely many steps. -/
theorem buildBeatGrid_loops_terminate (bpm offset durationSec : ℚ) (hbpm : 0 < bpm) :
    (backfillLoop (60 / bpm) ((⌈offset / (60 / bpm)⌉).toNat + 1) offset).isSome ∧
    ∀ t0, backfillLoop (60 / bpm) ((⌈offset / (60 / bpm)⌉).toNat + 1) offset = some t0 →
      (forwardLoop (60 / bpm) durationSec
        ((⌈(durationSec - t0) / (60 / bpm)⌉).toNat + 1) t0 []).isSome := by
  have hspb : (0 : ℚ) < 60 / bpm := by positivity
  refine ⟨backfillLoop_isSome _ hspb _ _ (by omega), ?_⟩
  intro t0 h
  exact forwardLoop_isSome _ _ hspb _ _ _ (by omega)

/-- Witness for C10 at bpm 120, offset 1, duration 2. -/
theorem buildBeatGrid_loops_terminate_witness :
    (backfillLoop (60 / 120) ((⌈(1 : ℚ) / (60 / 120)⌉).toNat + 1) 1).isSome ∧
    ∀ t0, backfillLoop (60 / 120) ((⌈(1 : ℚ) / (60 / 120)⌉).toNat + 1) 1 = some t0 →
      (forwardLoop (60 / 120) 2 ((⌈((2 : ℚ) - t0) / (60 / 120)⌉).toNat + 1) t0 []).isSome :=
  buildBeatGrid_loops_terminate 120 1 2 (by decide)

/-! ## C1: the auto-sync planner invariants -/

/-- Monotone access into a strictly increasing list. -/
theorem getD_le_getD_of_pairwise_lt (l : List ℚ) (hsorted : l.Pairwise (· < ·))
    (i j : ℕ) (hij : i ≤ j) (hj : j < l.length) : l.getD i 0 ≤ l.getD j 0 := by
  rcases eq_or_lt_of_le hij with rfl | hlt
  · exact le_refl _
  · have hi : i < l.length := lt_trans hlt hj
    rw [List.getD_eq_getElem l 0 hi, List.getD_eq_getElem l 0 hj]
    exact le_of_lt (List.pairwise_iff_getElem.mp hsorted i j hi hj hlt)

/-- A chosen candidate index lies past the current beat index and inside the
grid. -/
theorem chooseEndBeatIndex_bounds (beatsLen beatIndex firstAdjustment : ℕ) :
    ∀ lens idx, chooseEndBeatIndex beatsLen beatIndex firstAdjustment lens = some idx →
      beatIndex ≤ idx ∧ idx < beatsLen := by
  intro lens
  induction lens with
  | nil => intro idx h; simp [chooseEndBeatIndex] at h
  | cons len rest ih =>
    intro idx h
    rw [chooseEndBeatIndex] at h
    by_cases hc : beatIndex +
        (if beatIndex = 0 then max 1 (len - firstAdjustment) else len) < beatsLen
    · rw [if_pos hc] at h
      cases h
      exact ⟨Nat.le_add_right _ _, hc⟩
    · rw [if_neg hc] at h
      exact ih idx h

/-- The resolved end index (candidate or fallback) lies past the current beat
index and inside the grid. -/
theorem chosenEndIndex_bounds (beatsLen beatIndex firstAdjustment : ℕ)
    (allowedBarLengths : List ℕ) (beatsPerBar : ℕ) (idx : ℕ)
    (h : chosenEndIndex beatsLen beatIndex firstAdjustment allowedBarLengths beatsPerBar =
      some idx) : beatIndex ≤ idx ∧ idx < beatsLen := by
  rw [chosenEndIndex] at h
  cases hch : chooseEndBeatIndex beatsLen beatIndex firstAdjustment allowedBarLengths with
  | some c =>
    rw [hch] at h
    cases h
    exact chooseEndBeatIndex_bounds _ _ _ _ _ hch
  | none =>
    rw [hch] at h
    by_cases hfit : beatIndex +
        (if beatIndex = 0 then max 1 (beatsPerBar - firstAdjustment) else beatsPerBar) <
        beatsLen
    · rw [if_pos hfit] at h
      cases h
      exact ⟨Nat.le_add_right _ _, hfit⟩
    · rw [if_neg hfit] at h
      cases h

/-- Loop invariant of the auto-sync planner: every emitted segment lasts at
least 100 ms, starts no earlier than the current beat, and the emitted
segments are ordered with each one ending before the next begins. -/
theorem autoSyncLoop_invariant (orderedClips : List SourceClip) (beats : List ℚ)
    (totalDuration : ℚ) (allowedBarLengths : List ℕ) (beatsPerBar firstAdjustment : ℕ)
    (hsorted : beats.Pairwise (· < ·)) :
    ∀ fuel beatIndex segmentIndex,
      (∀ s ∈ autoSyncLoop orderedClips beats totalDuration allowedBarLengths beatsPerBar
          firstAdjustment fuel beatIndex segmentIndex, 100 ≤ s.duration) ∧
      (∀ s ∈ autoSyncLoop orderedClips beats totalDuration allowedBarLengths beatsPerBar
          firstAdjustment fuel beatIndex segmentIndex,
        beats.getD beatIndex 0 * 1000 ≤ s.timelineStart) ∧
      (autoSyncLoop orderedClips beats totalDuration allowedBarLengths beatsPerBar
          firstAdjustment fuel beatIndex segmentIndex).Pairwise
        (fun a b => a.timelineStart + a.duration ≤ b.timelineStart) := by
  intro fuel
  induction fuel with
  | zero => intro beatIndex segmentIndex; simp [autoSyncLoop]
  | succ fuel ih =>
    intro beatIndex segmentIndex
    by_cases hlen : beatIndex + 1 < beats.length
    · rw [autoSyncLoop, if_pos hlen]
      dsimp only
      cases hch : chosenEndIndex beats.length beatIndex firstAdjustment allowedBarLengths
          beatsPerBar with
      | none => simp
      | some endIdx =>
        obtain ⟨hbi, hlt⟩ := chosenEndIndex_bounds _ _ _ _ _ _ hch
        dsimp only
        by_cases hdur : beats.getD endIdx 0 * 1000 - beats.getD beatIndex 0 * 1000 < 100
        · rw [if_pos hdur]
          obtain ⟨ih1, ih2, ih3⟩ := ih (beatIndex + 1) segmentIndex
          refine ⟨ih1, ?_, ih3⟩
          intro s hs
          have hmono : beats.getD beatIndex 0 ≤ beats.getD (beatIndex + 1) 0 :=
            getD_le_getD_of_pairwise_lt beats hsorted _ _ (Nat.le_succ _) hlen
          have := ih2 s hs
          nlinarith
        · rw [if_neg hdur]
          by_cases hstop : totalDuration < beats.getD beatIndex 0 * 1000
          · rw [if_pos hstop]
            refine ⟨?_, ?_, ?_⟩
            · intro s hs
              rw [List.mem_singleton] at hs
              subst hs
              dsimp only
              linarith [not_lt.mp hdur]
            · intro s hs
              rw [List.mem_singleton] at hs
              subst hs
              dsimp only
              linarith
            · exact List.pairwise_singleton _ _
          · rw [if_neg hstop]
            obtain ⟨ih1, ih2, ih3⟩ := ih endIdx (segmentIndex + 1)
            have hmono : beats.getD beatIndex 0 ≤ beats.getD endIdx 0 :=
              getD_le_getD_of_pairwise_lt beats hsorted _ _ hbi hlt
            refine ⟨?_, ?_, ?_⟩
            · intro s hs
              rcases List.mem_cons.mp hs with hs | hs
              · subst hs
                dsimp only
                linarith [not_lt.mp hdur]
              · exact ih1 s hs
            · intro s hs
              rcases List.mem_cons.mp hs with hs | hs
              · subst hs
                dsimp only
                linarith
              · have := ih2 s hs
                nlinarith
            · rw [List.pairwise_cons]
              refine ⟨?_, ih3⟩
              intro t ht
              have := ih2 t ht
              dsimp only
              linarith
    · rw [autoSyncLoop, if_neg hlen]
      simp

/-- C1: for every clip list and every strictly increasing beat grid, the
auto-sync planner emits pairwise non-overlapping segments, each lasting at
least 100 ms. -/
theorem autoSyncClips_no_overlap_min_duration (clips : List SourceClip) (grid : BeatGrid)
    (totalDuration preferredBars : ℚ) (hsorted : grid.beats.Pairwise (· < ·)) :
    ((autoSyncClips clips grid totalDuration preferredBars).Pairwise fun a b =>
      a.timelineStart + a.duration ≤ b.timelineStart ∨
      b.timelineStart + b.duration ≤ a.timelineStart) ∧
    ∀ s ∈ autoSyncClips clips grid totalDuration preferredBars, 100 ≤ s.duration := by
  rw [autoSyncClips]
  dsimp only
  split
  · simp
  · obtain ⟨h1, _, h3⟩ := autoSyncLoop_invariant
      (clips.insertionSort fun a b => a.name ≤ b.name) grid.beats totalDuration _ _ _
      hsorted grid.beats.length 0 0
    exact ⟨h3.imp Or.inl, h1⟩

/-- Witness for C1 on a concrete scenario: one 2000 ms clip against a
four-beat grid with one-second spacing. -/
theorem autoSyncClips_no_overlap_min_duration_witness :
    ((autoSyncClips [{ id := 0, name := 0, duration := 2000, type := MediaType.video }]
        { bpm := 120, offset := 0, beats := [0, 1, 2, 3] }
        4000 1).Pairwise fun a b =>
      a.timelineStart + a.duration ≤ b.timelineStart ∨
      b.timelineStart + b.duration ≤ a.timelineStart) ∧
    ∀ s ∈ autoSyncClips [{ id := 0, name := 0, duration := 2000, type := MediaType.video }]
        { bpm := 120, offset := 0, beats := [0, 1, 2, 3] }
        4000 1, 100 ≤ s.duration :=
  autoSyncClips_no_overlap_min_duration _ _ _ _ (by decide)

/-! ## C4: the preferredBars sanitization -/

/-- Claim C4 fails on the code: autoSyncClips applies no upper clamp at 8, so
preferredBars = 9 yields a 9-bar (36-beat) first segment where the claimed
clamp to 8 bars would give a 32-beat one; on a 33-beat grid the two runs even
emit different numbers of segments. -/
theorem autoSyncClips_preferredBars_not_clamped :
    autoSyncClips [{ id := 0, name := 0, duration := 100000, type := MediaType.video }]
      { bpm := 120, offset := 0,
        beats := [0, 1, 2, 3, 4, 5, 6, 7, 8, 9, 10, 11, 12, 13, 14, 15, 16, 17, 18, 19,
          20, 21, 22, 23, 24, 25, 26, 27, 28, 29, 30, 31, 32] }
      100000 9 ≠
    autoSyncClips [{ id := 0, name := 0, duration := 100000, type := MediaType.video }]
      { bpm := 120, offset := 0,
        beats := [0, 1, 2, 3, 4, 5, 6, 7, 8, 9, 10, 11, 12, 13, 14, 15, 16, 17, 18, 19,
          20, 21, 22, 23, 24, 25, 26, 27, 28, 29, 30, 31, 32] }
      100000 (min 8 (max 1 9)) := by
  have h33 : (33 : ℕ) = 32 + 1 := rfl
  have hA : (autoSyncClips
      [{ id := 0, name := 0, duration := 100000, type := MediaType.video }]
      { bpm := 120, offset := 0,
        beats := [0, 1, 2, 3, 4, 5, 6, 7, 8, 9, 10, 11, 12, 13, 14, 15, 16, 17, 18, 19,
          20, 21, 22, 23, 24, 25, 26, 27, 28, 29, 30, 31, 32] }
      100000 9).head?.map ClipSegment.duration = some 16000 := by
    have hneg : ((-1 : ℤ)).toNat = 0 := rfl
    have h9 : ((9 : ℤ)).toNat = 9 := rfl
    have h4 : ((4 : ℤ)).toNat = 4 := rfl
    have h2 : ((2 : ℤ)).toNat = 2 := rfl
    have hcA : chosenEndIndex 33 0 0 [36, 16, 8, 4] 4 = some 16 := by decide
    have hg0 : ([0, 1, 2, 3, 4, 5, 6, 7, 8, 9, 10, 11, 12, 13, 14, 15, 16, 17, 18, 19,
        20, 21, 22, 23, 24, 25, 26, 27, 28, 29, 30, 31, 32] : List ℚ)[(0 : ℕ)]?.getD 0 =
        0 := rfl
    have hg16 : ([0, 1, 2, 3, 4, 5, 6, 7, 8, 9, 10, 11, 12, 13, 14, 15, 16, 17, 18, 19,
        20, 21, 22, 23, 24, 25, 26, 27, 28, 29, 30, 31, 32] : List ℚ)[(16 : ℕ)]?.getD 0 =
        16 := rfl
    norm_num [autoSyncClips, jsSetDedup, BEATS_PER_BAR, List.insertionSort,
      List.orderedInsert, round_eq]
    rw [h33, autoSyncLoop]
    norm_num [hneg, h9, h4, h2, hcA, hg0, hg16]
  have hB : (autoSyncClips
      [{ id := 0, name := 0, duration := 100000, type := MediaType.video }]
      { bpm := 120, offset := 0,
        beats := [0, 1, 2, 3, 4, 5, 6, 7, 8, 9, 10, 11, 12, 13, 14, 15, 16, 17, 18, 19,
          20, 21, 22, 23, 24, 25, 26, 27, 28, 29, 30, 31, 32] }
      100000 (min 8 (max 1 9))).head?.map ClipSegment.duration = some 32000 := by
    have hneg : ((-1 : ℤ)).toNat = 0 := rfl
    have h8 : ((8 : ℤ)).toNat = 8 := rfl
    have h4 : ((4 : ℤ)).toNat = 4 := rfl
    have h2 : ((2 : ℤ)).toNat = 2 := rfl
    have hcB : chosenEndIndex 33 0 0 [32, 16, 8, 4] 4 = some 32 := by decide
    have hg0 : ([0, 1, 2, 3, 4, 5, 6, 7, 8, 9, 10, 11, 12, 13, 14, 15, 16, 17, 18, 19,
        20, 21, 22, 23, 24, 25, 26, 27, 28, 29, 30, 31, 32] : List ℚ)[(0 : ℕ)]?.getD 0 =
        0 := rfl
    have hg32 : ([0, 1, 2, 3, 4, 5, 6, 7, 8, 9, 10, 11, 12, 13, 14, 15, 16, 17, 18, 19,
        20, 21, 22, 23, 24, 25, 26, 27, 28, 29, 30, 31, 32] : List ℚ)[(32 : ℕ)]?.getD 0 =
        32 := rfl
    norm_num [autoSyncClips, jsSetDedup, BEATS_PER_BAR, List.insertionSort,
      List.orderedInsert, round_eq]
    rw [h33, autoSyncLoop]
    norm_num [hneg, h8, h4, h2, hcB, hg0, hg32]
  intro h
  rw [h, hB] at hA
  simp at hA

/-- C4 (amended): inside autoSyncClips the preferredBars parameter is only
sanitized to max(1, round(preferredBars)) — the upper clamp to 8 bars happens
in the caller, not in the planner — so the planner output depends on
preferredBars exactly through that sanitized value. -/
theorem autoSyncClips_sanitizes_preferredBars (clips : List SourceClip) (grid : BeatGrid)
    (totalDuration p : ℚ) :
    autoSyncClips clips grid totalDuration p =
      autoSyncClips clips grid totalDuration ((max 1 (round p) : ℤ) : ℚ) := by
  have h : max 1 (round (((max 1 (round p) : ℤ) : ℚ))) = max 1 (round p) := by
    rw [round_intCast, ← max_assoc, max_self]
  simp only [autoSyncClips, h]

/-! ## C8: export gap fillers -/

/-- The per-segment export loop emits, for each segment whose clip resolves,
a filler of exactly gap = max(0, timelineStart/1000 - previousEnd) seconds —
present precisely when the gap is positive — where previousEnd is the previous
processed segment end, timelineStart/1000 + max(1, duration)/1000 (or the
initial accumulator for the first segment). -/
theorem exportRenderLoop_gap_fillers (clips : List SourceClip) :
    ∀ (segs : List ClipSegment) (lastEndSec : ℚ),
      (∀ s ∈ segs, (clips.find? fun c => c.id == s.sourceClipId).isSome) →
      (exportRenderLoop clips lastEndSec segs).map RenderedSegment.fillerSec =
        (segs.zip (lastEndSec :: segs.map fun s =>
            s.timelineStart / 1000 + max 1 s.duration / 1000)).map
          fun p =>
            if 0 < max 0 (p.1.timelineStart / 1000 - p.2) then
              some (max 0 (p.1.timelineStart / 1000 - p.2))
            else none := by
  intro segs
  induction segs with
  | nil => intro lastEndSec hfound; rfl
  | cons s rest ih =>
    intro lastEndSec hfound
    have hs := hfound s (List.mem_cons_self s rest)
    cases hclip : clips.find? fun c => c.id == s.sourceClipId with
    | none => rw [hclip] at hs; cases hs
    | some clip =>
      rw [exportRenderLoop, hclip]
      dsimp only
      rw [List.map_cons]
      rw [List.zip_cons_cons, List.map_cons, List.map_cons]
      dsimp only
      congr 1
      exact ih _ fun t ht => hfound t (List.mem_cons_of_mem s ht)

/-- C8: over the timeline-sorted video segments (all of whose source clips
resolve), the export compiler prepends a solid-color filler exactly when the
gap to the previous segment end is positive, with duration equal to that gap.
-/
theorem exportRender_gap_fillers (clips : List SourceClip)
    (videoSegments : List ClipSegment)
    (hfound : ∀ s ∈ videoSegments, (clips.find? fun c => c.id == s.sourceClipId).isSome) :
    (exportRender clips videoSegments).map RenderedSegment.fillerSec =
      ((videoSegments.insertionSort fun a b => a.timelineStart ≤ b.timelineStart).zip
        (0 :: (videoSegments.insertionSort fun a b =>
            a.timelineStart ≤ b.timelineStart).map fun s =>
          s.timelineStart / 1000 + max 1 s.duration / 1000)).map
        fun p =>
          if 0 < max 0 (p.1.timelineStart / 1000 - p.2) then
            some (max 0 (p.1.timelineStart / 1000 - p.2))
          else none := by
  apply exportRenderLoop_gap_fillers
  intro s hs
  exact hfound s ((List.perm_insertionSort _ _).mem_iff.mp hs)

/-- Witness for C8 on the spec scenario: a segment ending at 1000 ms followed
by one starting at 1100 ms yields no filler before the first and a 100 ms
(= 1/10 s) filler before the second. -/
theorem exportRender_gap_fillers_witness :
    (exportRender [{ id := 0, name := 0, duration := 5000, type := MediaType.video }]
      [{ id := 1, sourceClipId := 0, timelineStart := 0, duration := 1000,
          sourceStartOffset := 0 },
        { id := 2, sourceClipId := 0, timelineStart := 1100, duration := 900,
          sourceStartOffset := 0 }]).map RenderedSegment.fillerSec =
      [none, some (1/10)] := by
  have h := exportRender_gap_fillers
    [{ id := 0, name := 0, duration := 5000, type := MediaType.video }]
    [{ id := 1, sourceClipId := 0, timelineStart := 0, duration := 1000,
        sourceStartOffset := 0 },
      { id := 2, sourceClipId := 0, timelineStart := 1100, duration := 900,
        sourceStartOffset := 0 }]
    (by decide)
  rw [h]
  norm_num [List.insertionSort, List.orderedInsert]

/-! ## C6: resizing a segment shifts exactly the later segments -/

/-- A member of the list is found by idIndex (the result is not -1). -/
theorem idIndex_nonneg_of_mem (l : List ClipSegment) (a : ClipSegment) (ha : a ∈ l) :
    0 ≤ idIndex l a.id := by
  induction l with
  | nil => cases ha
  | cons s rest ih =>
    rw [idIndex]
    by_cases hsa : s.id = a.id
    · rw [if_pos hsa]
    · rw [if_neg hsa]
      rcases List.mem_cons.mp ha with rfl | ha2
      · exact absurd rfl hsa
      · have hr := ih ha2
        dsimp only
        rw [if_neg (not_lt.mpr hr)]
        omega

/-- On a strictly timeline-sorted list with unique segment ids, idIndex
comparison agrees with timeline order. -/
theorem idIndex_lt_iff (l : List ClipSegment) (hnodup : (l.map ClipSegment.id).Nodup)
    (hsorted : l.Pairwise fun a b => a.timelineStart < b.timelineStart)
    (a b : ClipSegment) (ha : a ∈ l) (hb : b ∈ l) :
    idIndex l a.id < idIndex l b.id ↔ a.timelineStart < b.timelineStart := by
  induction l with
  | nil => cases ha
  | cons s rest ih =>
    rw [List.map_cons, List.nodup_cons] at hnodup
    obtain ⟨hsid, hnd⟩ := hnodup
    rw [List.pairwise_cons] at hsorted
    obtain ⟨hslt, hsrt⟩ := hsorted
    rcases List.mem_cons.mp ha with rfl | ha2
    · rcases List.mem_cons.mp hb with rfl | hb2
      · simp
      · have hab : a.id ≠ b.id := by
          intro hcontra
          exact hsid (hcontra ▸ List.mem_map_of_mem _ hb2)
        rw [idIndex, if_pos rfl, idIndex, if_neg fun hcontra => hab hcontra]
        have hr := idIndex_nonneg_of_mem rest b hb2
        dsimp only
        rw [if_neg (not_lt.mpr hr)]
        constructor
        · intro _; exact hslt b hb2
        · intro _; omega
    · have hsa : s.id ≠ a.id := by
        intro hcontra
        exact hsid (hcontra ▸ List.mem_map_of_mem _ ha2)
      rcases List.mem_cons.mp hb with rfl | hb2
      · rw [idIndex, if_neg hsa, idIndex, if_pos rfl]
        have hr := idIndex_nonneg_of_mem rest a ha2
        dsimp only
        rw [if_neg (not_lt.mpr hr)]
        constructor
        · intro hcontra; omega
        · intro hcontra
          exact absurd (hslt a ha2) (lt_asymm hcontra)
      · have hsb : s.id ≠ b.id := by
          intro hcontra
          exact hsid (hcontra ▸ List.mem_map_of_mem _ hb2)
        rw [idIndex, if_neg hsa, idIndex, if_neg hsb]
        have hra := idIndex_nonneg_of_mem rest a ha2
        have hrb := idIndex_nonneg_of_mem rest b hb2
        dsimp only
        rw [if_neg (not_lt.mpr hra), if_neg (not_lt.mpr hrb)]
        rw [← ih hnd hsrt ha2 hb2]
        omega

/-- With unique ids, find? on the id locates exactly the member with that id.
-/
theorem find?_id_eq_some (l : List ClipSegment) (target : ClipSegment) (segId : ℕ)
    (hnodup : (l.map ClipSegment.id).Nodup) (hmem : target ∈ l) (hid : target.id = segId) :
    (l.find? fun s => s.id == segId) = some target := by
  induction l with
  | nil => cases hmem
  | cons s rest ih =>
    rw [List.map_cons, List.nodup_cons] at hnodup
    obtain ⟨hsid, hnd⟩ := hnodup
    rcases List.mem_cons.mp hmem with rfl | hmem2
    · exact List.find?_cons_of_pos _ (beq_iff_eq.mpr hid)
    · have hsa : ¬ (s.id == segId) = true := by
        rw [beq_iff_eq]
        intro hcontra
        exact hsid ((hcontra.trans hid.symm) ▸ List.mem_map_of_mem _ hmem2)
      have hsa2 : (s.id == segId) = false := by
        rw [Bool.not_eq_true] at hsa
        exact hsa
      rw [List.find?_cons, hsa2]
      dsimp only
      exact ih hnd hmem2

/-- C6: resizing a segment (updating its duration to newDuration) maps the
track segment list elementwise — the target gets the new duration, every
segment strictly later in timeline order is shifted by exactly
delta = newDuration - oldDuration, and every other segment (in particular
every earlier one) is completely unchanged; the segment count is preserved
because the update is a map. -/
theorem handleUpdateSegment_resize (tracks : List TimelineTrack) (tr : TimelineTrack)
    (target : ClipSegment) (segId : ℕ) (newDuration : ℚ)
    (htr : tr ∈ tracks) (hmem : target ∈ tr.segments) (hid : target.id = segId)
    (hnodup : (tr.segments.map ClipSegment.id).Nodup)
    (hts : tr.segments.Pairwise fun a b => a.timelineStart ≠ b.timelineStart) :
    updateSegmentInTrack segId { duration := some newDuration } tr ∈
      handleUpdateSegment tracks segId { duration := some newDuration } ∧
    (updateSegmentInTrack segId { duration := some newDuration } tr).segments =
      tr.segments.map fun s =>
        if s.id = segId then { s with duration := newDuration }
        else if target.timelineStart < s.timelineStart then
          { s with timelineStart := s.timelineStart + (newDuration - target.duration) }
        else s := by
  refine ⟨List.mem_map_of_mem _ htr, ?_⟩
  rw [updateSegmentInTrack, find?_id_eq_some tr.segments target segId hnodup hmem hid]
  dsimp only
  apply List.map_congr_left
  intro s hs
  have hperm := List.perm_insertionSort
    (fun a b : ClipSegment => a.timelineStart ≤ b.timelineStart) tr.segments
  have hordNodup : ((tr.segments.insertionSort
      fun a b => a.timelineStart ≤ b.timelineStart).map ClipSegment.id).Nodup :=
    ((hperm.map _).nodup_iff).mpr hnodup
  have hordSorted : (tr.segments.insertionSort
      fun a b => a.timelineStart ≤ b.timelineStart).Pairwise
      fun a b => a.timelineStart < b.timelineStart := by
    haveI : IsTotal ClipSegment (fun a b => a.timelineStart ≤ b.timelineStart) :=
      ⟨fun a b => le_total _ _⟩
    haveI : IsTrans ClipSegment (fun a b => a.timelineStart ≤ b.timelineStart) :=
      ⟨fun a b c hab hbc => le_trans hab hbc⟩
    have hle := List.sorted_insertionSort
      (fun a b : ClipSegment => a.timelineStart ≤ b.timelineStart) tr.segments
    have hne : (tr.segments.insertionSort
        fun a b => a.timelineStart ≤ b.timelineStart).Pairwise
        fun a b => a.timelineStart ≠ b.timelineStart :=
      (hperm.pairwise_iff fun hab => hab.symm).mpr hts
    exact (hle.and hne).imp fun h => lt_of_le_of_ne h.1 h.2
  have hamem : target ∈ tr.segments.insertionSort
      fun a b => a.timelineStart ≤ b.timelineStart := hperm.mem_iff.mpr hmem
  have hsmem : s ∈ tr.segments.insertionSort
      fun a b => a.timelineStart ≤ b.timelineStart := hperm.mem_iff.mpr hs
  have hidx0 : 0 ≤ idIndex (tr.segments.insertionSort
      fun a b => a.timelineStart ≤ b.timelineStart) segId :=
    hid ▸ idIndex_nonneg_of_mem _ target hamem
  have hiff := idIndex_lt_iff _ hordNodup hordSorted target s hamem hsmem
  rw [hid] at hiff
  by_cases hsid : s.id = segId
  · rw [if_pos hsid, if_pos hsid]
    rfl
  · rw [if_neg hsid, if_neg hsid]
    dsimp only [Option.getD]
    by_cases hdelta : newDuration - target.duration = 0
    · rw [if_neg]
      · by_cases hlt : target.timelineStart < s.timelineStart
        · rw [if_pos hlt, hdelta, add_zero]
        · rw [if_neg hlt]
      · intro hcontra
        exact hcontra.1 hdelta
    · by_cases hlt : target.timelineStart < s.timelineStart
      · rw [if_pos ⟨hdelta, hidx0, hiff.mpr hlt⟩, if_pos hlt]
      · rw [if_neg, if_neg hlt]
        intro hcontra
        exact hlt (hiff.mp hcontra.2.2)

/-- Witness for C6 on the spec scenario: resizing the 2000 ms segment to
3000 ms shifts the immediately following segment forward by exactly 1000 ms
and leaves everything else unchanged. -/
theorem handleUpdateSegment_resize_witness :
    updateSegmentInTrack 1 { duration := some 3000 }
        { id := 0,
          segments := [{ id := 1, sourceClipId := 0, timelineStart := 0,
                         duration := 2000, sourceStartOffset := 0 },
                       { id := 2, sourceClipId := 0, timelineStart := 2000,
                         duration := 1000, sourceStartOffset := 0 }],
          type := MediaType.video } ∈
      handleUpdateSegment
        [{ id := 0,
           segments := [{ id := 1, sourceClipId := 0, timelineStart := 0,
                          duration := 2000, sourceStartOffset := 0 },
                        { id := 2, sourceClipId := 0, timelineStart := 2000,
                          duration := 1000, sourceStartOffset := 0 }],
           type := MediaType.video }] 1 { duration := some 3000 } ∧
    (updateSegmentInTrack 1 { duration := some 3000 }
        { id := 0,
          segments := [{ id := 1, sourceClipId := 0, timelineStart := 0,
                         duration := 2000, sourceStartOffset := 0 },
                       { id := 2, sourceClipId := 0, timelineStart := 2000,
                         duration := 1000, sourceStartOffset := 0 }],
          type := MediaType.video }).segments =
      [{ id := 1, sourceClipId := 0, timelineStart := 0, duration := 2000,
         sourceStartOffset := 0 },
       { id := 2, sourceClipId := 0, timelineStart := 2000, duration := 1000,
         sourceStartOffset := 0 }].map fun s =>
        if s.id = 1 then { s with duration := (3000 : ℚ) }
        else if ((0 : ℚ) : ℚ) < s.timelineStart then
          { s with timelineStart := s.timelineStart + ((3000 : ℚ) - 2000) }
        else s := by
  have h := handleUpdateSegment_resize
    [{ id := 0,
       segments := [{ id := 1, sourceClipId := 0, timelineStart := 0,
                      duration := 2000, sourceStartOffset := 0 },
                    { id := 2, sourceClipId := 0, timelineStart := 2000,
                      duration := 1000, sourceStartOffset := 0 }],
       type := MediaType.video }]
    { id := 0,
      segments := [{ id := 1, sourceClipId := 0, timelineStart := 0,
                     duration := 2000, sourceStartOffset := 0 },
                   { id := 2, sourceClipId := 0, timelineStart := 2000,
                     duration := 1000, sourceStartOffset := 0 }],
      type := MediaType.video }
    { id := 1, sourceClipId := 0, timelineStart := 0, duration := 2000,
      sourceStartOffset := 0 }
    1 3000 (by simp) (by simp) rfl (by simp) (by decide)
  exact h

/-! ## C7: swapping two segments -/

/-- C7: when a swap applies (both segments found on tracks of the same type,
both clips present), each swapped segment keeps its own duration, carries the
other segment's sourceClipId, and its new sourceStartOffset is the offset
clamp min(max(0, otherOffset), max(0, newClipDuration - ownDuration)); hence
offset + duration ≤ newClipDuration whenever the new clip is long enough, and
the offset falls back to 0 otherwise. -/
theorem handleSwapSegments_spec (clips : List SourceClip) (tracks : List TimelineTrack)
    (sourceId targetId : ℕ) (sourceTrack targetTrack : TimelineTrack)
    (sourceSegment targetSegment : ClipSegment) (clipForSource clipForTarget : SourceClip)
    (hst : (tracks.find? fun t => t.segments.any fun s => s.id == sourceId) =
      some sourceTrack)
    (htt : (tracks.find? fun t => t.segments.any fun s => s.id == targetId) =
      some targetTrack)
    (htype : sourceTrack.type = targetTrack.type)
    (hss : (sourceTrack.segments.find? fun s => s.id == sourceId) = some sourceSegment)
    (hts2 : (targetTrack.segments.find? fun s => s.id == targetId) = some targetSegment)
    (hcs : (clips.find? fun c => c.id == targetSegment.sourceClipId) = some clipForSource)
    (hct : (clips.find? fun c => c.id == sourceSegment.sourceClipId) = some clipForTarget)
    (hne : sourceSegment.id ≠ targetSegment.id) :
    (∃ tr ∈ handleSwapSegments clips tracks sourceId targetId, ∃ s ∈ tr.segments,
      s.id = sourceSegment.id ∧ s.duration = sourceSegment.duration ∧
      s.sourceClipId = targetSegment.sourceClipId ∧
      s.sourceStartOffset = min (max 0 targetSegment.sourceStartOffset)
        (max 0 (clipForSource.duration - sourceSegment.duration)) ∧
      (sourceSegment.duration ≤ clipForSource.duration →
        s.sourceStartOffset + s.duration ≤ clipForSource.duration) ∧
      (clipForSource.duration < sourceSegment.duration → s.sourceStartOffset = 0)) ∧
    (∃ tr ∈ handleSwapSegments clips tracks sourceId targetId, ∃ s ∈ tr.segments,
      s.id = targetSegment.id ∧ s.duration = targetSegment.duration ∧
      s.sourceClipId = sourceSegment.sourceClipId ∧
      s.sourceStartOffset = min (max 0 sourceSegment.sourceStartOffset)
        (max 0 (clipForTarget.duration - targetSegment.duration)) ∧
      (targetSegment.duration ≤ clipForTarget.duration →
        s.sourceStartOffset + s.duration ≤ clipForTarget.duration) ∧
      (clipForTarget.duration < targetSegment.duration → s.sourceStartOffset = 0)) := by
  have hclampS : clampOffsetForClip clips targetSegment.sourceClipId
      sourceSegment.duration targetSegment.sourceStartOffset =
      min (max 0 targetSegment.sourceStartOffset)
        (max 0 (clipForSource.duration - sourceSegment.duration)) := by
    rw [clampOffsetForClip, hcs]
  have hclampT : clampOffsetForClip clips sourceSegment.sourceClipId
      targetSegment.duration sourceSegment.sourceStartOffset =
      min (max 0 sourceSegment.sourceStartOffset)
        (max 0 (clipForTarget.duration - targetSegment.duration)) := by
    rw [clampOffsetForClip, hct]
  have hresult : handleSwapSegments clips tracks sourceId targetId =
      tracks.map fun track =>
        if track.id ≠ sourceTrack.id ∧ track.id ≠ targetTrack.id then track
        else
          { track with
            segments := track.segments.map fun seg =>
              if seg.id = sourceSegment.id then
                { seg with
                  sourceClipId := targetSegment.sourceClipId
                  sourceStartOffset := clampOffsetForClip clips
                    targetSegment.sourceClipId sourceSegment.duration
                    targetSegment.sourceStartOffset }
              else if seg.id = targetSegment.id then
                { seg with
                  sourceClipId := sourceSegment.sourceClipId
                  sourceStartOffset := clampOffsetForClip clips
                    sourceSegment.sourceClipId targetSegment.duration
                    sourceSegment.sourceStartOffset }
              else seg } := by
    rw [handleSwapSegments, hst, htt]
    dsimp only
    rw [if_neg (by rw [htype]; exact fun hcontra => hcontra rfl)]
    rw [hss, hts2]
  have hboundS : ∀ duration clipDuration offset : ℚ,
      (duration ≤ clipDuration →
        min (max 0 offset) (max 0 (clipDuration - duration)) + duration ≤ clipDuration) ∧
      (clipDuration < duration →
        min (max 0 offset) (max 0 (clipDuration - duration)) = 0) := by
    intro duration clipDuration offset
    constructor
    · intro hle
      have h1 : min (max 0 offset) (max 0 (clipDuration - duration)) ≤
          max 0 (clipDuration - duration) := min_le_right _ _
      have h2 : max 0 (clipDuration - duration) = clipDuration - duration :=
        max_eq_right (by linarith)
      linarith [h1, h2.le, h2.ge]
    · intro hlt
      have h2 : max 0 (clipDuration - duration) = 0 := max_eq_left (by linarith)
      rw [h2]
      exact min_eq_right (le_max_left _ _)
  constructor
  · rw [hresult]
    refine ⟨_, List.mem_map.mpr ⟨sourceTrack, List.mem_of_find?_eq_some hst, rfl⟩, ?_⟩
    rw [if_neg fun hcontra => hcontra.1 rfl]
    dsimp only
    refine ⟨_, List.mem_map.mpr ⟨sourceSegment, List.mem_of_find?_eq_some hss, rfl⟩, ?_⟩
    rw [if_pos rfl]
    refine ⟨rfl, rfl, rfl, hclampS, ?_, ?_⟩
    · intro hle
      dsimp only
      rw [hclampS]
      exact (hboundS sourceSegment.duration clipForSource.duration
        targetSegment.sourceStartOffset).1 hle
    · intro hlt
      dsimp only
      rw [hclampS]
      exact (hboundS sourceSegment.duration clipForSource.duration
        targetSegment.sourceStartOffset).2 hlt
  · rw [hresult]
    refine ⟨_, List.mem_map.mpr ⟨targetTrack, List.mem_of_find?_eq_some htt, rfl⟩, ?_⟩
    rw [if_neg fun hcontra => hcontra.2 rfl]
    dsimp only
    refine ⟨_, List.mem_map.mpr ⟨targetSegment, List.mem_of_find?_eq_some hts2, rfl⟩, ?_⟩
    rw [if_neg fun hcontra => hne hcontra.symm, if_pos rfl]
    refine ⟨rfl, rfl, rfl, hclampT, ?_, ?_⟩
    · intro hle
      dsimp only
      rw [hclampT]
      exact (hboundS targetSegment.duration clipForTarget.duration
        sourceSegment.sourceStartOffset).1 hle
    · intro hlt
      dsimp only
      rw [hclampT]
      exact (hboundS targetSegment.duration clipForTarget.duration
        sourceSegment.sourceStartOffset).2 hlt

/-- Witness for C7: swapping a 1000 ms segment of a 5000 ms clip (offset 300)
with a segment of an 800 ms clip — the first segment falls back to offset 0
because the 800 ms clip is shorter than its duration, the second keeps offset
300 clamped against the 5000 ms clip. -/
theorem handleSwapSegments_spec_witness :
    (∃ tr ∈ handleSwapSegments
        [{ id := 0, name := 0, duration := 5000, type := MediaType.video },
         { id := 1, name := 1, duration := 800, type := MediaType.video }]
        [{ id := 0,
           segments := [{ id := 1, sourceClipId := 0, timelineStart := 0,
                          duration := 1000, sourceStartOffset := 300 },
                        { id := 2, sourceClipId := 1, timelineStart := 1000,
                          duration := 1000, sourceStartOffset := 0 }],
           type := MediaType.video }] 1 2, ∃ s ∈ tr.segments,
      s.id = 1 ∧ s.duration = (1000 : ℚ) ∧ s.sourceClipId = 1 ∧
      s.sourceStartOffset = min (max 0 (0 : ℚ)) (max 0 ((800 : ℚ) - 1000)) ∧
      ((1000 : ℚ) ≤ 800 → s.sourceStartOffset + s.duration ≤ 800) ∧
      ((800 : ℚ) < 1000 → s.sourceStartOffset = 0)) ∧
    (∃ tr ∈ handleSwapSegments
        [{ id := 0, name := 0, duration := 5000, type := MediaType.video },
         { id := 1, name := 1, duration := 800, type := MediaType.video }]
        [{ id := 0,
           segments := [{ id := 1, sourceClipId := 0, timelineStart := 0,
                          duration := 1000, sourceStartOffset := 300 },
                        { id := 2, sourceClipId := 1, timelineStart := 1000,
                          duration := 1000, sourceStartOffset := 0 }],
           type := MediaType.video }] 1 2, ∃ s ∈ tr.segments,
      s.id = 2 ∧ s.duration = (1000 : ℚ) ∧ s.sourceClipId = 0 ∧
      s.sourceStartOffset = min (max 0 (300 : ℚ)) (max 0 ((5000 : ℚ) - 1000)) ∧
      ((1000 : ℚ) ≤ 5000 → s.sourceStartOffset + s.duration ≤ 5000) ∧
      ((5000 : ℚ) < 1000 → s.sourceStartOffset = 0)) :=
  handleSwapSegments_spec
    [{ id := 0, name := 0, duration := 5000, type := MediaType.video },
     { id := 1, name := 1, duration := 800, type := MediaType.video }]
    [{ id := 0,
       segments := [{ id := 1, sourceClipId := 0, timelineStart := 0,
                      duration := 1000, sourceStartOffset := 300 },
                    { id := 2, sourceClipId := 1, timelineStart := 1000,
                      duration := 1000, sourceStartOffset := 0 }],
       type := MediaType.video }] 1 2
    { id := 0,
      segments := [{ id := 1, sourceClipId := 0, timelineStart := 0,
                     duration := 1000, sourceStartOffset := 300 },
                   { id := 2, sourceClipId := 1, timelineStart := 1000,
                     duration := 1000, sourceStartOffset := 0 }],
      type := MediaType.video }
    { id := 0,
      segments := [{ id := 1, sourceClipId := 0, timelineStart := 0,
                     duration := 1000, sourceStartOffset := 300 },
                   { id := 2, sourceClipId := 1, timelineStart := 1000,
                     duration := 1000, sourceStartOffset := 0 }],
      type := MediaType.video }
    { id := 1, sourceClipId := 0, timelineStart := 0, duration := 1000,
      sourceStartOffset := 300 }
    { id := 2, sourceClipId := 1, timelineStart := 1000, duration := 1000,
      sourceStartOffset := 0 }
    { id := 1, name := 1, duration := 800, type := MediaType.video }
    { id := 0, name := 0, duration := 5000, type := MediaType.video }
    rfl rfl rfl rfl rfl rfl rfl (by decide)

end Beatcutter
